import Mathlib

/-!
Shallow embedding of golog (src/log.go): a leveled logging facility with
threshold gating, fixed-layout header formatting, file sink configuration,
rotation enablement and an age-based retention sweep.  Pure functions model
the Go code; environment inputs (the clock, `runtime.Caller` results,
`os.OpenFile` results, directory listings) are explicit parameters.
-/

namespace Golog

/- Severity ordinals from the RFC5424 constant block (`iota`, ascending). -/

def LEVEL_EMERGENCY : Int := 0

def LEVEL_ALERT : Int := 1

def LEVEL_CRITICAL : Int := 2

def LEVEL_ERROR : Int := 3

def LEVEL_WARNING : Int := 4

def LEVEL_NOTICE : Int := 5

def LEVEL_INFO : Int := 6

def LEVEL_DEBUG : Int := 7

def LEVEL_VERBOSE : Int := 8

/-- The fixed 9-entry severity tag table `levelStrings`. -/
def levelStrings : List String :=
  ["[EMERGENCY]", "[ALERT]", "[CRITICAL]", "[ERROR]", "[WARNING]",
   "[NOTICE]", "[INFO]", "[DEBUG]", "[VERB]"]

/-- Go slice indexing `levelStrings[level]` (with `level` an `int32`):
`none` models the index-out-of-range panic, raised for a negative index
or an index at or beyond the table length. -/
def levelTag (level : Int) : Option String :=
  if level < 0 then none else levelStrings[level.toNat]?

/-- Digit-assembly loop of `itoa`: emits the decimal digits of `u`,
continuing while `u > 0` or padding width `wid` remains, most
significant digit first (the Go code assembles them in reverse into a
scratch array and appends the used suffix).  The loop body decreases
`u + wid.toNat` by at least one, so running it on that much fuel
reproduces the Go loop exactly: fuel runs out only when the loop
condition is already false. -/
def itoaLoop : Nat → Nat → Int → List Char
  | 0, _, _ => []
  | fuel + 1, u, wid =>
    if 0 < u ∨ 0 < wid then
      itoaLoop fuel (u / 10) (wid - 1) ++ [Char.ofNat (48 + u % 10)]
    else []

/-- Cheap integer to fixed-width decimal ASCII (`itoa` in src/log.go):
zero-pads to `wid` digits, a non-positive width means no padding.  The
argument is `Nat`, modelling Go's `uint(i)` for the non-negative values
every call site passes. -/
def itoa (i : Nat) (wid : Int) : String :=
  if i = 0 ∧ wid ≤ 1 then "0" else String.mk (itoaLoop (i + wid.toNat) i wid)

/-- Backward scan of `formatHeader` over the caller file path: examines
positions `len-1` down to `1` (index 0 is never examined, mirroring the
loop bound `i > 0`) and returns the index of the rightmost separator
found, if any. -/
def shortLoop (cs : List Char) : Nat → Option Nat
  | 0 => none
  | i + 1 => if cs[i + 1]? = some '/' then some (i + 1) else shortLoop cs i

/-- Basename truncation in `formatHeader`: keep the substring after the
separator found by the backward scan, or the whole string when the scan
finds none. -/
def shortFile (file : String) : String :=
  match shortLoop file.data (file.data.length - 1) with
  | some i => String.mk (file.data.drop (i + 1))
  | none => file

/-- One instant as the Go code reads it: `t.Date()`, `t.Clock()` and
`t.Nanosecond()`. -/
structure TimeStamp where
  year : Nat
  month : Nat
  day : Nat
  hour : Nat
  minute : Nat
  sec : Nat
  nsec : Nat

/-- Header formatting (`Logger.formatHeader`): zero-padded date, time,
optional 6-digit microseconds, severity tag, basename and line number.
`none` models the panic of the unchecked `levelStrings[level]` lookup. -/
def formatHeader (micro : Bool) (t : TimeStamp) (level : Int)
    (file : String) (line : Nat) : Option String :=
  match levelTag level with
  | none => none
  | some tag =>
      some (itoa t.year 4 ++ "-" ++ itoa t.month 2 ++ "-" ++ itoa t.day 2 ++ " " ++
        itoa t.hour 2 ++ ":" ++ itoa t.minute 2 ++ ":" ++ itoa t.sec 2 ++
        (if micro then "." ++ itoa (t.nsec / 1000) 6 else "") ++ " " ++
        tag ++ " " ++ shortFile file ++ ":" ++ itoa line (-1) ++ ": ")

/-- Trailing line break appended by `Logger.output`: only when the
message is nonempty and its last byte is not already a newline
(`len(s) > 0 && s[len(s)-1] != '\n'`). -/
def trailingNewline (s : String) : String :=
  match s.data.getLast? with
  | some c => if c = '\n' then "" else "\n"
  | none => ""

/-- Result of one `Logger.output` call: gated out (nil error, nothing
written), or the bytes handed to the sink in one `Write`, or the
index-out-of-range panic inside `formatHeader`. -/
inductive OutputResult where
  | skipped
  | wrote (bytes : String)
  | panicked
deriving DecidableEq

/-- The write path `Logger.output`: threshold gate, then header,
message and conditional newline assembled into the shared buffer and
written in one operation. -/
def output (threshold : Int) (micro : Bool) (t : TimeStamp) (level : Int)
    (file : String) (line : Nat) (s : String) : OutputResult :=
  if level > threshold then .skipped
  else
    match formatHeader micro t level file line with
    | none => .panicked
    | some hdr => .wrote (hdr ++ s ++ trailingNewline s)

/-- The mutable fields of the global `Logger` value `_log`: threshold,
sink handle (`none` models a nil `*os.File`), stored file path, shared
buffer, and the two formatting flags. -/
structure Logger where
  level : Int
  out : Option Nat
  path : String
  buf : String
  microseconds : Bool
  shortfile : Bool

/-- The initial global logger: default error stream (handle 0), empty
path, threshold NOTICE, microseconds on, shortfile on. -/
def defaultLogger : Logger :=
  { level := LEVEL_NOTICE, out := some 0, path := "", buf := "",
    microseconds := true, shortfile := true }

/-- Effect of one output call on the logger fields: an accepted write
leaves its bytes in the shared buffer; a gated call returns before
touching it; a panic aborts before the write. -/
def applyOutput (l : Logger) (r : OutputResult) : Logger :=
  match r with
  | .wrote b => { l with buf := b }
  | _ => l

/-- One logging call against the current state (`_log.output`): the
clock reading and the resolved caller location are explicit inputs. -/
def logAt (l : Logger) (t : TimeStamp) (level : Int) (callerFile : String)
    (callerLine : Nat) (s : String) : Logger × OutputResult :=
  let r := output l.level l.microseconds t level callerFile callerLine s
  (applyOutput l r, r)

/-- SetLevel from src/log.go: logs the audit line through `Critical`
(severity `LEVEL_CRITICAL`, gated by the threshold still in effect),
then stores the new threshold. -/
def SetLevel (l : Logger) (t : TimeStamp) (callerFile : String)
    (callerLine : Nat) (level : Int) : Logger × OutputResult :=
  let p := logAt l t LEVEL_CRITICAL callerFile callerLine
    ("set log level to " ++ toString level)
  ({ p.1 with level := level }, p.2)

/-- GetLevel: the (atomic) load of the threshold. -/
def GetLevel (l : Logger) : Int := l.level

/-- SetFile from src/log.go: `openResult` models `os.OpenFile` (`none`
on error, in which case the Go local `f` is nil); on error the code
logs through `Error` with the error text, and in every case it then
assigns `out` and `path` unconditionally.  Returns the new state and
whether the error branch ran. -/
def SetFile (l : Logger) (t : TimeStamp) (callerFile : String) (callerLine : Nat)
    (path : String) (openResult : Option Nat) (errStr : String) : Logger × Bool :=
  let l1 := if openResult.isNone then
      (logAt l t LEVEL_ERROR callerFile callerLine
        ("error on SetLogFile: err: " ++ errStr)).1
    else l
  ({ l1 with out := openResult, path := path }, openResult.isNone)

/-- ReOpen from src/log.go: returns immediately when the STORED path is
empty; otherwise closes the current handle and reruns `SetFile` on the
stored path (the `pathArg` parameter is ignored by the Go code). -/
def ReOpen (l : Logger) (t : TimeStamp) (callerFile : String) (callerLine : Nat)
    (pathArg : String) (openResult : Option Nat) (errStr : String) : Logger :=
  if l.path = "" then l
  else (SetFile l t callerFile callerLine l.path openResult errStr).1

/- Go `time.Duration` values, in nanoseconds. -/

def timeMinute : Int := 60000000000

def timeHour : Int := 3600000000000

def timeDay : Int := 24 * 3600000000000

/-- EnableRotate from src/log.go: rejects any period other than one
minute, one hour or one day with an error log and returns before
creating anything; on a valid period it starts one more pair of timer
goroutines (counted here by `loops`; no `Logger` field is touched
either way).  The duration in the error text is rendered as integer
nanoseconds in this model. -/
def EnableRotate (l : Logger) (loops : Nat) (t : TimeStamp) (callerFile : String)
    (callerLine : Nat) (period : Int) : Logger × Nat × Bool :=
  if period ≠ timeMinute ∧ period ≠ timeHour ∧ period ≠ timeDay then
    ((logAt l t LEVEL_ERROR callerFile callerLine
      ("bad rotate peirod: " ++ toString period)).1, loops, false)
  else (l, loops + 1, true)

/-- First index of `sub` in `s` counting from `i`, or `-1` when absent
(the search loop behind Go `strings.Index`). -/
def stringsIndexAux (s sub : List Char) (i : Nat) : Int :=
  if sub.isPrefixOf s then (i : Int)
  else
    match s with
    | [] => -1
    | _ :: rest => stringsIndexAux rest sub (i + 1)

/-- Go `strings.Index`: first occurrence index of `sub` in `s`, or -1. -/
def stringsIndex (s sub : List Char) : Int := stringsIndexAux s sub 0

/-- One directory entry as the sweep reads it: its name and its age,
`time.Now().Sub(fileInfo.ModTime())`, in nanoseconds. -/
structure FileInfo where
  name : String
  age : Int

/-- Deletion test of `deleteExpiredLog` for one directory entry:
nonzero retention, `strings.Index(fileName ++ ".", logName) == 0`, and
age at least the retention duration `saveTime`. -/
def shouldDelete (saveTime : Int) (logName : String) (fileName : String)
    (age : Int) : Bool :=
  decide (saveTime ≠ 0) &&
    decide (stringsIndex (fileName ++ ".").data logName.data = 0) &&
    decide (saveTime ≤ age)

/-- deleteExpiredLog from src/log.go: the sweep over a directory
listing, returning the names it removes.  (On a `ReadDir` failure the
Go code logs a warning and the loop runs over a nil slice, removing
nothing.) -/
def deleteExpiredLog (saveTime : Int) (logName : String)
    (entries : List FileInfo) : List String :=
  (entries.filter (fun fi => shouldDelete saveTime logName fi.name fi.age)).map
    (fun fi => fi.name)

/-- Stacktrace from src/log.go: its own gate `level > GetLevel()` and
then the write path with the arbitrary caller-supplied level (the
appended stack text is part of the message string here). -/
def Stacktrace (l : Logger) (t : TimeStamp) (callerFile : String)
    (callerLine : Nat) (level : Int) (s : String) : Logger × OutputResult :=
  if level > GetLevel l then (l, .skipped)
  else logAt l t level callerFile callerLine s

/- Concrete fixtures used by the closed theorems. -/

/-- A sample clock reading. -/
def sampleTime : TimeStamp := ⟨2015, 5, 14, 9, 56, 0, 0⟩

/-- A logger with an open file sink (handle 7) on path `old.log`. -/
def fileLogger : Logger :=
  { level := 5, out := some 7, path := "old.log", buf := "",
    microseconds := true, shortfile := true }

/-- A logger whose threshold is EMERGENCY (ordinal 0). -/
def emergencyLogger : Logger :=
  { level := 0, out := some 0, path := "", buf := "",
    microseconds := false, shortfile := true }

/-- A logger whose threshold is VERBOSE (ordinal 8). -/
def verboseLogger : Logger :=
  { level := 8, out := some 0, path := "", buf := "",
    microseconds := false, shortfile := true }

/-- A logger whose threshold was set to 9, past the tag table. -/
def level9Logger : Logger :=
  { level := 9, out := some 0, path := "", buf := "",
    microseconds := true, shortfile := true }

/-! Helper lemmas shared by the claim theorems. -/

theorem applyOutput_level (l : Logger) (r : OutputResult) :
    (applyOutput l r).level = l.level := by cases r <;> rfl

theorem applyOutput_out (l : Logger) (r : OutputResult) :
    (applyOutput l r).out = l.out := by cases r <;> rfl

theorem applyOutput_path (l : Logger) (r : OutputResult) :
    (applyOutput l r).path = l.path := by cases r <;> rfl

theorem applyOutput_microseconds (l : Logger) (r : OutputResult) :
    (applyOutput l r).microseconds = l.microseconds := by cases r <;> rfl

theorem applyOutput_shortfile (l : Logger) (r : OutputResult) :
    (applyOutput l r).shortfile = l.shortfile := by cases r <;> rfl

/-- With a tag available at `level`, an ungated call writes the header,
the message and the conditional newline, in that order. -/
theorem output_wrote_of_le (T : Int) (micro : Bool) (t : TimeStamp) (level : Int)
    (file : String) (line : Nat) (s : String) (tag : String)
    (htag : levelTag level = some tag) (hle : level ≤ T) :
    output T micro t level file line s = OutputResult.wrote
      (itoa t.year 4 ++ "-" ++ itoa t.month 2 ++ "-" ++ itoa t.day 2 ++ " " ++
        itoa t.hour 2 ++ ":" ++ itoa t.minute 2 ++ ":" ++ itoa t.sec 2 ++
        (if micro then "." ++ itoa (t.nsec / 1000) 6 else "") ++ " " ++
        tag ++ " " ++ shortFile file ++ ":" ++ itoa line (-1) ++ ": " ++
        s ++ trailingNewline s) := by
  have hgate : ¬ level > T := not_lt.2 hle
  simp [output, formatHeader, htag, hgate]

/-- An emitted line carries the severity tag of its level. -/
theorem logAt_buf_tag (l : Logger) (t : TimeStamp) (level : Int) (cf : String)
    (cl : Nat) (s : String) (tag : String) (htag : levelTag level = some tag)
    (hle : level ≤ l.level) :
    ∃ u v, (logAt l t level cf cl s).1.buf.data = u ++ tag.data ++ v := by
  have h := output_wrote_of_le l.level l.microseconds t level cf cl s tag htag hle
  refine ⟨(itoa t.year 4 ++ "-" ++ itoa t.month 2 ++ "-" ++ itoa t.day 2 ++ " " ++
      itoa t.hour 2 ++ ":" ++ itoa t.minute 2 ++ ":" ++ itoa t.sec 2 ++
      (if l.microseconds then "." ++ itoa (t.nsec / 1000) 6 else "") ++ " ").data,
    (" " ++ shortFile cf ++ ":" ++ itoa cl (-1) ++ ": " ++
      s ++ trailingNewline s).data, ?_⟩
  simp only [logAt, h, applyOutput]
  simp [String.data_append, List.append_assoc]

/-- The severity-tag lookup succeeds exactly on ordinals 0 through 8. -/
theorem levelTag_isSome_iff (level : Int) :
    (levelTag level).isSome = true ↔ 0 ≤ level ∧ level < 9 := by
  constructor
  · intro h
    by_contra hc
    rcases not_and_or.mp hc with h1 | h2
    · rw [not_le] at h1
      simp [levelTag, h1] at h
    · rw [not_lt] at h2
      have hneg : ¬ level < 0 := by omega
      have hlen : levelStrings.length ≤ level.toNat := by
        simp [levelStrings]; omega
      simp [levelTag, hneg, List.getElem?_eq_none hlen] at h
  · rintro ⟨h0, h9⟩
    interval_cases level <;> decide

/-- The severity-tag lookup panics outside ordinals 0 through 8. -/
theorem levelTag_eq_none (level : Int) (hbad : level < 0 ∨ 9 ≤ level) :
    levelTag level = none := by
  rcases hbad with h1 | h2
  · simp [levelTag, h1]
  · have hneg : ¬ level < 0 := by omega
    have hlen : levelStrings.length ≤ level.toNat := by
      simp [levelStrings]; omega
    simp [levelTag, hneg, List.getElem?_eq_none hlen]

/-! Claim theorems. -/

/-- C1: a log call at severity `level` against threshold `T` (severity
ordinals 0 through 8, ascending from emergency to verbose) hands bytes
to the sink iff `level ≤ T`, and when `level > T` the call is a no-op
returning the nil error. -/
theorem c1_output_gate (T : Int) (micro : Bool) (t : TimeStamp) (level : Int)
    (file : String) (line : Nat) (s : String) (h0 : 0 ≤ level) (h8 : level ≤ 8) :
    ((∃ b, output T micro t level file line s = OutputResult.wrote b) ↔ level ≤ T) ∧
    (T < level → output T micro t level file line s = OutputResult.skipped) := by
  obtain ⟨tag, htag⟩ : ∃ tag, levelTag level = some tag := by
    interval_cases level <;> exact ⟨_, rfl⟩
  constructor
  · constructor
    · rintro ⟨b, hb⟩
      by_contra hTl
      rw [not_le] at hTl
      simp [output, hTl] at hb
    · intro hle
      exact ⟨_, output_wrote_of_le T micro t level file line s tag htag hle⟩
  · intro hTl
    simp [output, hTl]

/-- C1 witness: threshold NOTICE, a WARNING call is written and the
gate comparison evaluates as claimed. -/
theorem c1_output_gate_witness :
    ((∃ b, output 5 true ⟨2015, 5, 14, 9, 56, 0, 23132000⟩ 4 "a.go" 3 "hi" =
        OutputResult.wrote b) ↔ (4 : Int) ≤ 5) ∧
    ((5 : Int) < 4 → output 5 true ⟨2015, 5, 14, 9, 56, 0, 23132000⟩ 4 "a.go" 3 "hi" =
        OutputResult.skipped) :=
  c1_output_gate 5 true ⟨2015, 5, 14, 9, 56, 0, 23132000⟩ 4 "a.go" 3 "hi"
    (by decide) (by decide)

/-- C2: failing input for the retention prefix test.  The code checks
`strings.Index(fileName ++ ".", logName) == 0` instead of matching the
prefix `logName ++ "."`, so the entry `app.logX` — which does not begin
with `app.log.` — is deleted once it is old enough. -/
theorem c2_prefix_check_bug :
    shouldDelete 5 "app.log" "app.logX" 10 = true ∧
    List.isPrefixOf "app.log.".data "app.logX".data = false ∧
    deleteExpiredLog 5 "app.log" [⟨"app.logX", 10⟩] = ["app.logX"] := by decide

/-- C3: when the open fails in `SetFile` (Go `f` is nil), the code
still overwrites both the sink handle and the stored path after logging
the failure at error severity; the previous configuration is not
preserved. -/
theorem c3_setfile_clobbers :
    ((SetFile fileLogger sampleTime "caller.go" 83 "/bad/x.log" none
        "no such file").1.out = none) ∧
    ((SetFile fileLogger sampleTime "caller.go" 83 "/bad/x.log" none
        "no such file").1.path = "/bad/x.log") ∧
    ((SetFile fileLogger sampleTime "caller.go" 83 "/bad/x.log" none
        "no such file").1.buf =
      "2015-05-14 09:56:00.000000 [ERROR] caller.go:83: error on SetLogFile: err: no such file\n") := by
  decide

/-- C4: the sweep's deletion test also matches the active sink file
itself: with nonzero retention and an old enough modification time,
the entry whose name equals the base log name exactly (no rotation
suffix) is removed along with the rotated one. -/
theorem c4_active_file_deleted :
    shouldDelete 5 "app.log" "app.log" 10 = true ∧
    deleteExpiredLog 5 "app.log"
        [⟨"app.log", 10⟩, ⟨"app.log.20200101", 10⟩, ⟨"other.txt", 10⟩] =
      ["app.log", "app.log.20200101"] := by decide

/-- C5 counterexample: with the previous threshold at EMERGENCY (0),
`SetLevel` emits no audit line at all — the audit goes through
`Critical` (severity ordinal 2) and is gated by the old threshold —
and when the line is emitted its tag is `[CRITICAL]`, not the
ordinal-0 tag. -/
theorem c5_audit_counterexample :
    (SetLevel emergencyLogger sampleTime "log.go" 70 7).2 = OutputResult.skipped ∧
    (SetLevel verboseLogger sampleTime "log.go" 70 7).2 =
      OutputResult.wrote "2015-05-14 09:56:00 [CRITICAL] log.go:70: set log level to 7\n" := by
  decide

/-- C5 amended: `SetLevel` stores the new threshold (read back by
`GetLevel`) and leaves the sink configuration alone; its audit line is
logged at severity `LEVEL_CRITICAL` (ordinal 2) before the store, so
it is suppressed exactly when the previous threshold is below 2, and
when emitted it carries the `[CRITICAL]` tag. -/
theorem c5_setlevel_amended (l : Logger) (t : TimeStamp) (cf : String)
    (cl : Nat) (n : Int) :
    GetLevel (SetLevel l t cf cl n).1 = n ∧
    (SetLevel l t cf cl n).1.out = l.out ∧
    (SetLevel l t cf cl n).1.path = l.path ∧
    ((SetLevel l t cf cl n).2 = OutputResult.skipped ↔ l.level < LEVEL_CRITICAL) ∧
    (LEVEL_CRITICAL ≤ l.level →
      ∃ u v, (SetLevel l t cf cl n).1.buf.data = u ++ "[CRITICAL]".data ++ v) := by
  have htag : levelTag LEVEL_CRITICAL = some "[CRITICAL]" := rfl
  refine ⟨rfl, ?_, ?_, ?_, ?_⟩
  · simp [SetLevel, logAt, applyOutput_out]
  · simp [SetLevel, logAt, applyOutput_path]
  · constructor
    · intro h
      by_contra hc
      rw [not_lt] at hc
      have hw := output_wrote_of_le l.level l.microseconds t LEVEL_CRITICAL cf cl
        ("set log level to " ++ toString n) "[CRITICAL]" htag hc
      simp [SetLevel, logAt, hw] at h
    · intro h
      have hgate : LEVEL_CRITICAL > l.level := h
      simp [SetLevel, logAt, output, hgate]
  · intro h
    obtain ⟨u, v, huv⟩ := logAt_buf_tag l t LEVEL_CRITICAL cf cl
      ("set log level to " ++ toString n) "[CRITICAL]" htag h
    exact ⟨u, v, huv⟩

/-- C5 amended witness: from the default threshold (NOTICE) the store
lands and the audit line carries the critical tag. -/
theorem c5_setlevel_amended_witness :
    GetLevel (SetLevel defaultLogger sampleTime "log.go" 70 7).1 = 7 ∧
    ((SetLevel defaultLogger sampleTime "log.go" 70 7).2 = OutputResult.skipped ↔
      defaultLogger.level < LEVEL_CRITICAL) ∧
    (∃ u v, (SetLevel defaultLogger sampleTime "log.go" 70 7).1.buf.data =
      u ++ "[CRITICAL]".data ++ v) :=
  ⟨(c5_setlevel_amended defaultLogger sampleTime "log.go" 70 7).1,
   (c5_setlevel_amended defaultLogger sampleTime "log.go" 70 7).2.2.2.1,
   (c5_setlevel_amended defaultLogger sampleTime "log.go" 70 7).2.2.2.2 (by decide)⟩

/-- C6 counterexample: an empty message does not end with a line
break, yet the write path appends none (`len(s) > 0` guards the
append), so the emitted bytes are the bare header ending in a space. -/
theorem c6_empty_message_counterexample :
    output 8 false sampleTime 4 "a.go" 3 "" =
      OutputResult.wrote "2015-05-14 09:56:00 [WARNING] a.go:3: " ∧
    "2015-05-14 09:56:00 [WARNING] a.go:3: ".data.getLast? ≠ some '\n' := by
  decide

/-- An assembled log line ends in a newline exactly when the message
is nonempty (the header itself ends in a space). -/
theorem line_last_char (hdrPre : String) (s : String) :
    ((hdrPre ++ ": ") ++ s ++ trailingNewline s).data.getLast? = some '\n' ↔
      s ≠ "" := by
  by_cases hs : s = ""
  · subst hs
    have htn : trailingNewline "" = "" := rfl
    have h2 : (": " : String).data.getLast? = some ' ' := rfl
    rw [htn]
    simp [String.data_append, List.getLast?_append, h2]
  · have hsd : s.data ≠ [] := fun hc => hs (String.ext hc)
    constructor
    · intro _; exact hs
    · intro _
      obtain ⟨c, hc⟩ : ∃ c, s.data.getLast? = some c := by
        cases hgl : s.data.getLast? with
        | none => exact absurd (List.getLast?_eq_none_iff.mp hgl) hsd
        | some c => exact ⟨c, rfl⟩
      by_cases hcn : c = '\n'
      · have htn : trailingNewline s = "" := by
          simp [trailingNewline, hc, hcn]
        rw [htn]
        simp [String.data_append, List.getLast?_append, hc, hcn]
        rw [show (' ' :: s.data) = [' '] ++ s.data from rfl,
          List.getLast?_append, hc, hcn]
        rfl
      · have htn : trailingNewline s = "\n" := by
          simp [trailingNewline, hc, hcn]
        rw [htn]
        simp [String.data_append, List.getLast?_append]
        rw [show (' ' :: (s.data ++ ['\n'])) = [' '] ++ (s.data ++ ['\n']) from rfl,
          List.getLast?_append, List.getLast?_append]
        rfl

/-- C6 amended: an accepted write emits header, then message, then a
line break appended exactly when the message is nonempty and does not
already end in one; hence the emitted bytes end in a newline iff the
message is nonempty, and an empty message emits the bare header (which
ends in a space, not a newline). -/
theorem c6_output_line (T : Int) (micro : Bool) (t : TimeStamp) (level : Int)
    (file : String) (line : Nat) (s : String)
    (h0 : 0 ≤ level) (h8 : level ≤ 8) (hT : level ≤ T) :
    ∃ hdr, formatHeader micro t level file line = some hdr ∧
      output T micro t level file line s =
        OutputResult.wrote (hdr ++ s ++ trailingNewline s) ∧
      ((hdr ++ s ++ trailingNewline s).data.getLast? = some '\n' ↔ s ≠ "") := by
  obtain ⟨tag, htag⟩ : ∃ tag, levelTag level = some tag := by
    interval_cases level <;> exact ⟨_, rfl⟩
  refine ⟨itoa t.year 4 ++ "-" ++ itoa t.month 2 ++ "-" ++ itoa t.day 2 ++ " " ++
      itoa t.hour 2 ++ ":" ++ itoa t.minute 2 ++ ":" ++ itoa t.sec 2 ++
      (if micro then "." ++ itoa (t.nsec / 1000) 6 else "") ++ " " ++
      tag ++ " " ++ shortFile file ++ ":" ++ itoa line (-1) ++ ": ", ?_, ?_, ?_⟩
  · simp [formatHeader, htag]
  · exact output_wrote_of_le T micro t level file line s tag htag hT
  · exact line_last_char _ s

/-- C6 amended witness: a nonempty message at WARNING against NOTICE
emits one line ending in a newline. -/
theorem c6_output_line_witness :
    ∃ hdr, formatHeader false sampleTime 4 "a.go" 3 = some hdr ∧
      output 5 false sampleTime 4 "a.go" 3 "hi" =
        OutputResult.wrote (hdr ++ "hi" ++ trailingNewline "hi") ∧
      ((hdr ++ "hi" ++ trailingNewline "hi").data.getLast? = some '\n' ↔
        ("hi" : String) ≠ "") :=
  c6_output_line 5 false sampleTime 4 "a.go" 3 "hi" (by decide) (by decide) (by decide)

/-- The backward scan finds nothing when no separator occurs at any
examined position. -/
theorem shortLoop_eq_none (cs : List Char) (i : Nat)
    (h : ∀ j, 1 ≤ j → j ≤ i → cs[j]? ≠ some '/') : shortLoop cs i = none := by
  induction i with
  | zero => rfl
  | succ k ih =>
    simp only [shortLoop]
    rw [if_neg (h (k + 1) (by omega) (le_refl _))]
    exact ih (fun j hj1 hj2 => h j hj1 (by omega))

/-- The backward scan stops at the rightmost separator with positive
index. -/
theorem shortLoop_eq_some (cs : List Char) (k : Nat) (hk : 1 ≤ k)
    (hsep : cs[k]? = some '/') :
    ∀ i, k ≤ i → (∀ j, k < j → j ≤ i → cs[j]? ≠ some '/') →
      shortLoop cs i = some k := by
  intro i
  induction i with
  | zero => intro hki _; omega
  | succ m ih =>
    intro hki hnone
    by_cases he : k = m + 1
    · subst he
      simp only [shortLoop]
      rw [if_pos hsep]
    · have hkm : k ≤ m := by omega
      simp only [shortLoop]
      rw [if_neg (hnone (m + 1) (by omega) (le_refl _))]
      exact ih hkm (fun j h1 h2 => hnone j h1 (by omega))

/-- C7 counterexample: for a path whose only separator is its first
character the claim predicts the substring after that separator, but
the scan never examines index 0, so `shortFile` keeps the whole
string. -/
theorem c7_leading_slash_counterexample :
    shortFile "/a.go" = "/a.go" ∧ shortFile "/a.go" ≠ "a.go" := by decide

/-- C7 amended: the caller path is truncated to the substring after
the last separator occurring at an index at least 1; when no separator
occurs at any index at least 1 — in particular when there is no
separator at all, or the only separator is the leading character — the
full string is used. -/
theorem c7_shortfile_amended :
    (∀ file : String, '/' ∉ file.data.drop 1 → shortFile file = file) ∧
    (∀ a b : String, a ≠ "" → '/' ∉ b.data → shortFile (a ++ "/" ++ b) = b) := by
  constructor
  · intro file h
    have hnone : shortLoop file.data (file.data.length - 1) = none := by
      apply shortLoop_eq_none
      intro j hj1 _ hcontra
      apply h
      have hdrop : (file.data.drop 1)[j - 1]? = some '/' := by
        rw [List.getElem?_drop]
        have hj : 1 + (j - 1) = j := by omega
        rw [hj]
        exact hcontra
      exact List.getElem?_mem hdrop
    simp only [shortFile, hnone]
  · intro a b ha hb
    have hadata : a.data ≠ [] := fun hc => ha (String.ext hc)
    have hk1 : 1 ≤ a.data.length := by
      cases hd : a.data with
      | nil => exact absurd hd hadata
      | cons x xs => simp [hd]
    have hdata : (a ++ "/" ++ b).data = a.data ++ '/' :: b.data := by
      simp [String.data_append]
    have hsep : (a ++ "/" ++ b).data[a.data.length]? = some '/' := by
      rw [hdata, List.getElem?_append_right (le_refl _)]
      simp
    have hnone2 : ∀ j, a.data.length < j → (a ++ "/" ++ b).data[j]? ≠ some '/' := by
      intro j hj hcontra
      rw [hdata, List.getElem?_append_right (by omega)] at hcontra
      have h1 : j - a.data.length = (j - a.data.length - 1) + 1 := by omega
      rw [h1, List.getElem?_cons_succ] at hcontra
      exact hb (List.getElem?_mem hcontra)
    have hlen : (a ++ "/" ++ b).data.length = a.data.length + 1 + b.data.length := by
      rw [hdata]; simp; omega
    have hloop : shortLoop (a ++ "/" ++ b).data ((a ++ "/" ++ b).data.length - 1) =
        some a.data.length := by
      apply shortLoop_eq_some _ _ hk1 hsep
      · omega
      · intro j h1 _
        exact hnone2 j h1
    simp only [shortFile, hloop]
    rw [hdata, List.drop_append 1]
    rfl

/-- C7 amended witness: a separator at a positive index is truncated,
a separator-free name is kept whole. -/
theorem c7_shortfile_amended_witness :
    shortFile ("src" ++ "/" ++ "a.go") = "a.go" ∧
    shortFile "noslash.go" = "noslash.go" :=
  ⟨c7_shortfile_amended.2 "src" "a.go" (by decide) (by decide),
   c7_shortfile_amended.1 "noslash.go" (by decide)⟩

/-- C8: `EnableRotate` on any period other than exactly one minute,
one hour or one day starts no rotation loop, reports the bad period at
error severity (visible in the shared buffer when ERROR passes the
threshold) and leaves every configuration field of the logger
unchanged. -/
theorem c8_enablerotate_reject (l : Logger) (loops : Nat) (t : TimeStamp)
    (cf : String) (cl : Nat) (period : Int) (hm : period ≠ timeMinute)
    (hh : period ≠ timeHour) (hd : period ≠ timeDay) :
    (EnableRotate l loops t cf cl period).2.1 = loops ∧
    (EnableRotate l loops t cf cl period).2.2 = false ∧
    (EnableRotate l loops t cf cl period).1.level = l.level ∧
    (EnableRotate l loops t cf cl period).1.out = l.out ∧
    (EnableRotate l loops t cf cl period).1.path = l.path ∧
    (EnableRotate l loops t cf cl period).1.microseconds = l.microseconds ∧
    (EnableRotate l loops t cf cl period).1.shortfile = l.shortfile ∧
    (LEVEL_ERROR ≤ l.level →
      ∃ u v, (EnableRotate l loops t cf cl period).1.buf.data =
        u ++ "[ERROR]".data ++ v) := by
  have hcond : period ≠ timeMinute ∧ period ≠ timeHour ∧ period ≠ timeDay :=
    ⟨hm, hh, hd⟩
  refine ⟨?_, ?_, ?_, ?_, ?_, ?_, ?_, ?_⟩
  · simp [EnableRotate, hcond]
  · simp [EnableRotate, hcond]
  · simp [EnableRotate, hcond, logAt, applyOutput_level]
  · simp [EnableRotate, hcond, logAt, applyOutput_out]
  · simp [EnableRotate, hcond, logAt, applyOutput_path]
  · simp [EnableRotate, hcond, logAt, applyOutput_microseconds]
  · simp [EnableRotate, hcond, logAt, applyOutput_shortfile]
  · intro hlev
    obtain ⟨u, v, huv⟩ := logAt_buf_tag l t LEVEL_ERROR cf cl
      ("bad rotate peirod: " ++ toString period) "[ERROR]" rfl hlev
    refine ⟨u, v, ?_⟩
    simpa [EnableRotate, hcond] using huv

/-- C8 witness: a five-nanosecond period is rejected with no state
change and an error line in the buffer. -/
theorem c8_enablerotate_reject_witness :
    (EnableRotate defaultLogger 0 sampleTime "log.go" 126 5).2.2 = false ∧
    (EnableRotate defaultLogger 0 sampleTime "log.go" 126 5).2.1 = 0 ∧
    (EnableRotate defaultLogger 0 sampleTime "log.go" 126 5).1.path =
      defaultLogger.path ∧
    (∃ u v, (EnableRotate defaultLogger 0 sampleTime "log.go" 126 5).1.buf.data =
      u ++ "[ERROR]".data ++ v) :=
  ⟨(c8_enablerotate_reject defaultLogger 0 sampleTime "log.go" 126 5
      (by decide) (by decide) (by decide)).2.1,
   (c8_enablerotate_reject defaultLogger 0 sampleTime "log.go" 126 5
      (by decide) (by decide) (by decide)).1,
   (c8_enablerotate_reject defaultLogger 0 sampleTime "log.go" 126 5
      (by decide) (by decide) (by decide)).2.2.2.2.1,
   (c8_enablerotate_reject defaultLogger 0 sampleTime "log.go" 126 5
      (by decide) (by decide) (by decide)).2.2.2.2.2.2.2 (by decide)⟩

/-- C9: the severity-tag lookup in the header formatter succeeds
exactly for ordinals 0 through 8 (no bounds check, a 9-entry table),
and the out-of-range branch is reachable: `Stacktrace` forwards an
arbitrary caller-supplied level to the formatter once it passes the
threshold gate, where the lookup panics. -/
theorem c9_levelstrings_bounds :
    (∀ level : Int, (levelTag level).isSome = true ↔ 0 ≤ level ∧ level < 9) ∧
    (∀ (l : Logger) (t : TimeStamp) (cf : String) (cl : Nat) (level : Int)
      (s : String), level ≤ l.level → (level < 0 ∨ 9 ≤ level) →
      (Stacktrace l t cf cl level s).2 = OutputResult.panicked) := by
  constructor
  · exact levelTag_isSome_iff
  · intro l t cf cl level s hle hbad
    have hgate : ¬ level > GetLevel l := not_lt.2 hle
    have hnone : levelTag level = none := levelTag_eq_none level hbad
    simp [Stacktrace, hgate, logAt, output, formatHeader, hnone, GetLevel,
      not_lt.2 hle, applyOutput]

/-- C9 witness: ordinal 3 is in range; with the threshold stored as 9,
a `Stacktrace` call at level 9 passes the gate and panics in the
formatter. -/
theorem c9_levelstrings_bounds_witness :
    ((levelTag 3).isSome = true ↔ (0 : Int) ≤ 3 ∧ (3 : Int) < 9) ∧
    (Stacktrace level9Logger sampleTime "a.go" 3 9 "x").2 =
      OutputResult.panicked :=
  ⟨c9_levelstrings_bounds.1 3,
   c9_levelstrings_bounds.2 level9Logger sampleTime "a.go" 3 9 "x"
     (by decide) (by decide)⟩

/-- C10: when the stored path is empty (the sink is still the default
error stream), `ReOpen` returns before taking the lock and the logger
state is returned unchanged in every field. -/
theorem c10_reopen_noop (l : Logger) (t : TimeStamp) (cf : String) (cl : Nat)
    (pathArg : String) (openResult : Option Nat) (errStr : String)
    (h : l.path = "") :
    ReOpen l t cf cl pathArg openResult errStr = l := by
  simp [ReOpen, h]

/-- C10 witness: reopening with the default configuration (empty
stored path) changes nothing. -/
theorem c10_reopen_noop_witness :
    ReOpen defaultLogger sampleTime "caller.go" 91 "ignored.log" none "err" =
      defaultLogger :=
  c10_reopen_noop defaultLogger sampleTime "caller.go" 91 "ignored.log" none
    "err" rfl

end Golog
